import Mathlib

/-!
# Verification of the collision core of the boxes-and-ball simulation

Shallow embedding of `src/main.py`.  `pygame.Rect` is an integer rectangle,
so rectangles are modelled with `ℤ` fields.  Floating-point quantities are
modelled exactly: the box-side code only ever compares the intended-motion
floats (every float value is a rational number, so those parameters are `ℚ`
and the whole box layer stays computable), while the ball-side code computes
`math.sqrt` / `math.hypot` and is therefore modelled over `ℝ` with
`Real.sqrt`.
-/

namespace Autonomia

/-- `pygame.Rect`: integer top-left corner and integer size. -/
structure Rect where
  x : ℤ
  y : ℤ
  w : ℤ
  h : ℤ
  deriving DecidableEq, Repr

def Rect.left (r : Rect) : ℤ := r.x

def Rect.right (r : Rect) : ℤ := r.x + r.w

def Rect.top (r : Rect) : ℤ := r.y

def Rect.bottom (r : Rect) : ℤ := r.y + r.h

/-- `pygame.Rect.colliderect` for the positive-size rectangles this program
builds (both boxes are 50×50): strict inequalities on all four edges, so
edge-touching rectangles do not collide (spec §4.1: rectangles overlap iff
they share positive area). -/
def colliderect (a b : Rect) : Bool :=
  decide (a.left < b.right) && decide (b.left < a.right) &&
    decide (a.top < b.bottom) && decide (b.top < a.bottom)

/-- `overlap_left if overlap_left < overlap_right else -overlap_right`
(src/main.py lines 31-37). -/
def min_x_overlap (mover s : Rect) : ℤ :=
  if mover.right - s.left < s.right - mover.left then mover.right - s.left
  else -(s.right - mover.left)

/-- `overlap_top if overlap_top < overlap_bottom else -overlap_bottom`
(src/main.py lines 33-38). -/
def min_y_overlap (mover s : Rect) : ℤ :=
  if mover.bottom - s.top < s.bottom - mover.top then mover.bottom - s.top
  else -(s.bottom - mover.top)

/-- `resolve_aabb_overlap` (src/main.py lines 20-58).  Returns the mover
rectangle after the in-place mutation together with the `(dx, dy)` correction
that the Python function returns.  The overlap quantities are integers, so
the `int(dx)` casts of the source are identities. -/
def resolve_aabb_overlap (mover s : Rect) (vx vy : ℚ) : Rect × ℤ × ℤ :=
  if ¬ (colliderect mover s = true) then (mover, 0, 0)
  else
    let mxo := min_x_overlap mover s
    let myo := min_y_overlap mover s
    let d : ℤ × ℤ :=
      if |mxo| < |myo| then (-mxo, 0)
      else if |myo| < |mxo| then (0, -myo)
      else if |vx| ≥ |vy| then (-mxo, 0)
      else (0, -myo)
    ({ mover with x := mover.x + d.1, y := mover.y + d.2 }, d)

/-- Box-box resolution step of the tick (src/main.py lines 172-200), reached
when `box1.colliderect(box2)`.  Both resolutions are computed on copies; the
source then writes *both* copies back unless the fallback triggers. -/
def step2 (box1 box2 : Rect) (dx1 dy1 dx2 dy2 : ℚ) : Rect × Rect :=
  if colliderect box1 box2 = true then
    let r1 := (resolve_aabb_overlap box1 box2 dx1 dy1).1
    let r2 := (resolve_aabb_overlap box2 box1 dx2 dy2).1
    let corr1 := |r1.x - box1.x| + |r1.y - box1.y|
    let corr2 := |r2.x - box2.x| + |r2.y - box2.y|
    if corr1 + corr2 = 0 then
      if |dx1| + |dx2| ≥ |dy1| + |dy2| then
        if dx1 > dx2 then ({ box1 with x := box2.left - box1.w }, box2)
        else (box1, { box2 with x := box1.left - box2.w })
      else
        if dy1 > dy2 then ({ box1 with y := box2.top - box1.h }, box2)
        else (box1, { box2 with y := box1.top - box2.h })
    else (r1, r2)
  else (box1, box2)

/-! ## Ball-side definitions (floats modelled as reals) -/

/-- `WIDTH` (src/main.py line 5). -/
noncomputable def WIDTH : ℝ := 960

/-- `HEIGHT` (src/main.py line 5). -/
noncomputable def HEIGHT : ℝ := 720

/-- `BALL_RADIUS` (src/main.py line 14). -/
noncomputable def BALL_RADIUS : ℝ := 22

/-- `BALL_BOUNCE_DAMP` (src/main.py line 16). -/
noncomputable def BALL_BOUNCE_DAMP : ℝ := 0.95

/-- `BALL_FRICTION` (src/main.py line 17). -/
noncomputable def BALL_FRICTION : ℝ := 0.995

/-- `closest_x = max(rect.left, min(cx, rect.right))` (src/main.py line 67). -/
noncomputable def closest_x (cx : ℝ) (rect : Rect) : ℝ := max (rect.left : ℝ) (min cx (rect.right : ℝ))

/-- `closest_y = max(rect.top, min(cy, rect.bottom))` (src/main.py line 68). -/
noncomputable def closest_y (cy : ℝ) (rect : Rect) : ℝ := max (rect.top : ℝ) (min cy (rect.bottom : ℝ))

/-- The key Python minimises over: `abs(v[0]) + abs(v[1])` (src/main.py line 92). -/
noncomputable def push_mag (v : ℝ × ℝ) : ℝ := |v.1| + |v.2|

/-- The `options` list of the degenerate branch of `circle_rect_overlap`
(src/main.py lines 81-91): push left, push right, push up, push down. -/
noncomputable def degenerate_options (cx cy r : ℝ) (rect : Rect) : List (ℝ × ℝ) :=
  [(-(r - |cx - (rect.left : ℝ)|), 0), ((r - |(rect.right : ℝ) - cx|), 0),
   (0, -(r - |cy - (rect.top : ℝ)|)), (0, (r - |(rect.bottom : ℝ) - cy|))]

/-- Python's `min(list, key=...)`: scan left to right, replace the current best
only on a strictly smaller key, so the first minimiser wins. -/
noncomputable def min_by_mag : List (ℝ × ℝ) → ℝ × ℝ → ℝ × ℝ
  | [], best => best
  | o :: rest, best => min_by_mag rest (if push_mag o < push_mag best then o else best)

/-- `circle_rect_overlap` (src/main.py lines 61-101). -/
noncomputable def circle_rect_overlap (cx cy r : ℝ) (rect : Rect) : ℝ × ℝ :=
  let dx := cx - closest_x cx rect
  let dy := cy - closest_y cy rect
  let dist_sq := dx * dx + dy * dy
  if dist_sq > r * r then (0, 0)
  else
    let dist := if dist_sq ≠ 0 then Real.sqrt dist_sq else 0
    if dist = 0 then
      match degenerate_options cx cy r rect with
      | o :: rest => min_by_mag rest o
      | [] => (0, 0)
    else
      let nx := dx / dist
      let ny := dy / dist
      let pen := r - dist
      (nx * pen, ny * pen)

/-- `reflect_velocity_over_normal` (src/main.py lines 104-109). -/
noncomputable def reflect_velocity_over_normal (vx vy nx ny damp : ℝ) : ℝ × ℝ :=
  let dot := vx * nx + vy * ny
  ((vx - 2 * dot * nx) * damp, (vy - 2 * dot * ny) * damp)

/-- Spec formula §4.4, written with the vector operations the spec uses:
`v' = (v - 2(v·n)n) * damping`.  Stated to be compared with the source's
componentwise `reflect_velocity_over_normal`. -/
noncomputable def reflect_formula (v n : ℝ × ℝ) (damping : ℝ) : ℝ × ℝ :=
  damping • (v - (2 * (v.1 * n.1 + v.2 * n.2)) • n)

/-- Contact-normal computation of the ball-box response (src/main.py lines
232-236): `nlen = math.hypot(px, py)`; a zero length is replaced by the
default "up" normal `(0, -1)`. -/
noncomputable def contact_normal (px py : ℝ) : ℝ × ℝ :=
  let nlen := Real.sqrt (px * px + py * py)
  if nlen = 0 then (0, -1) else (px / nlen, py / nlen)

/-- Ball-vs-one-box response (src/main.py lines 225-246): push the ball out,
reflect the velocity relative to the (kinematic) box about the contact
normal, re-add the box velocity.  `damp` is `BALL_BOUNCE_DAMP` in the source. -/
noncomputable def ball_box_response (pos vel : ℝ × ℝ) (r : ℝ) (rect : Rect) (mvx mvy damp : ℝ) :
    (ℝ × ℝ) × (ℝ × ℝ) :=
  let p := circle_rect_overlap pos.1 pos.2 r rect
  if p.1 ≠ 0 ∨ p.2 ≠ 0 then
    let pos' := (pos.1 + p.1, pos.2 + p.2)
    let n := contact_normal p.1 p.2
    let rv := reflect_velocity_over_normal (vel.1 - mvx) (vel.2 - mvy) n.1 n.2 damp
    (pos', (rv.1 + mvx, rv.2 + mvy))
  else (pos, vel)

/-- Step 5 of the tick (src/main.py lines 220-246): the ball-box response is
run for box 1 first, then for box 2 on the updated state. -/
noncomputable def step5 (pos vel : ℝ × ℝ) (r : ℝ) (box1 box2 : Rect)
    (mv1x mv1y mv2x mv2y damp : ℝ) : (ℝ × ℝ) × (ℝ × ℝ) :=
  let s1 := ball_box_response pos vel r box1 mv1x mv1y damp
  ball_box_response s1.1 s1.2 r box2 mv2x mv2y damp

/-- Step 3 of the tick (src/main.py lines 203-204): integrate the position,
then scale the velocity by the friction factor. -/
noncomputable def ball_integrate (pos vel : ℝ × ℝ) (dt : ℝ) : (ℝ × ℝ) × (ℝ × ℝ) :=
  ((pos.1 + vel.1 * dt, pos.2 + vel.2 * dt),
   (vel.1 * BALL_FRICTION, vel.2 * BALL_FRICTION))

/-- Step 4 of the tick (src/main.py lines 207-218): the four wall checks run
unconditionally in the order left, right, top, bottom, each one reading the
position already clamped by the previous checks. -/
noncomputable def wall_bounce (pos vel : ℝ × ℝ) (r width height damp : ℝ) : (ℝ × ℝ) × (ℝ × ℝ) :=
  let px1 := if pos.1 - r < 0 then r else pos.1
  let vx1 := if pos.1 - r < 0 then -vel.1 * damp else vel.1
  let px2 := if px1 + r > width then width - r else px1
  let vx2 := if px1 + r > width then -vx1 * damp else vx1
  let py1 := if pos.2 - r < 0 then r else pos.2
  let vy1 := if pos.2 - r < 0 then -vel.2 * damp else vel.2
  let py2 := if py1 + r > height then height - r else py1
  let vy2 := if py1 + r > height then -vy1 * damp else vy1
  ((px2, py2), (vx2, vy2))

/-- Steps 3-4 for a tick in which the ball meets no box, with the program's
constants (src/main.py lines 202-218). -/
noncomputable def ball_wall_tick (pos vel : ℝ × ℝ) (dt : ℝ) : (ℝ × ℝ) × (ℝ × ℝ) :=
  let s := ball_integrate pos vel dt
  wall_bounce s.1 s.2 BALL_RADIUS WIDTH HEIGHT BALL_BOUNCE_DAMP

/-- Squared magnitude of a velocity; comparisons of speeds are equivalent to
comparisons of squared speeds. -/
noncomputable def speed_sq (v : ℝ × ℝ) : ℝ := v.1 * v.1 + v.2 * v.2

/-! ## Helper lemmas for the box layer -/

lemma colliderect_overlaps {m s : Rect} (hc : colliderect m s = true) :
    s.left + 1 ≤ m.right ∧ m.left + 1 ≤ s.right ∧
      s.top + 1 ≤ m.bottom ∧ m.top + 1 ≤ s.bottom := by
  simp only [colliderect, Bool.and_eq_true, decide_eq_true_eq] at hc
  omega

lemma min_x_overlap_ne {m s : Rect} (hc : colliderect m s = true) :
    min_x_overlap m s ≠ 0 := by
  have h := colliderect_overlaps hc
  unfold min_x_overlap
  split_ifs <;> omega

lemma min_y_overlap_ne {m s : Rect} (hc : colliderect m s = true) :
    min_y_overlap m s ≠ 0 := by
  have h := colliderect_overlaps hc
  unfold min_y_overlap
  split_ifs <;> omega

/-- The correction applied by `resolve_aabb_overlap` to two genuinely
colliding rectangles is never the zero vector. -/
lemma resolve_corr_pos (m s : Rect) (vx vy : ℚ) (hc : colliderect m s = true) :
    0 < |((resolve_aabb_overlap m s vx vy).1).x - m.x| +
        |((resolve_aabb_overlap m s vx vy).1).y - m.y| := by
  have hx := min_x_overlap_ne hc
  have hy := min_y_overlap_ne hc
  simp only [resolve_aabb_overlap, hc]
  norm_num
  split_ifs <;> simp <;> omega

/-! ## Claims about the box-box layer -/

/-- Claim C1: the spec says that when the two boxes overlap at the start of
step 2 the Tick Integrator applies exactly one of the two computed
corrections (the smaller-magnitude variant), leaving the other box
unchanged.  The code contradicts this (and its own inline comment "Choose
the one with smaller total correction"): it writes BOTH resolved copies
back.  At boxes (0,0,50,50) and (40,0,50,50) with zero intended motion,
box 1 moves to x = -10 AND box 2 moves to x = 50 — neither box is left
unchanged. -/
theorem C1_step2_moves_both_boxes :
    step2 ⟨0, 0, 50, 50⟩ ⟨40, 0, 50, 50⟩ 0 0 0 0 = (⟨-10, 0, 50, 50⟩, ⟨50, 0, 50, 50⟩) ∧
    (step2 ⟨0, 0, 50, 50⟩ ⟨40, 0, 50, 50⟩ 0 0 0 0).1 ≠ ⟨0, 0, 50, 50⟩ ∧
    (step2 ⟨0, 0, 50, 50⟩ ⟨40, 0, 50, 50⟩ 0 0 0 0).2 ≠ ⟨40, 0, 50, 50⟩ :=
  ⟨by decide, by decide, by decide⟩

/-- Claim C9: the box-box zero-correction fallback branch is unreachable:
whenever the overlap test guarding step 2 holds, each of the two
`resolve_aabb_overlap` calls applies a correction of magnitude at least one
pixel, so `corr1 + corr2 > 0` and `step2` takes the non-fallback branch. -/
theorem C9_fallback_unreachable (b1 b2 : Rect) (dx1 dy1 dx2 dy2 : ℚ)
    (hc : colliderect b1 b2 = true) :
    0 < (|((resolve_aabb_overlap b1 b2 dx1 dy1).1).x - b1.x| +
          |((resolve_aabb_overlap b1 b2 dx1 dy1).1).y - b1.y|) +
        (|((resolve_aabb_overlap b2 b1 dx2 dy2).1).x - b2.x| +
          |((resolve_aabb_overlap b2 b1 dx2 dy2).1).y - b2.y|) ∧
    step2 b1 b2 dx1 dy1 dx2 dy2 =
      ((resolve_aabb_overlap b1 b2 dx1 dy1).1, (resolve_aabb_overlap b2 b1 dx2 dy2).1) := by
  have hc' : colliderect b2 b1 = true := by
    simp only [colliderect, Bool.and_eq_true, decide_eq_true_eq] at hc ⊢
    omega
  have h1 := resolve_corr_pos b1 b2 dx1 dy1 hc
  have h2 := resolve_corr_pos b2 b1 dx2 dy2 hc'
  constructor
  · linarith
  · simp only [step2, hc, if_true]
    rw [if_neg (by omega)]

theorem C9_fallback_unreachable_witness :
    colliderect ⟨0, 0, 50, 50⟩ ⟨30, 10, 50, 50⟩ = true ∧
    (0 < (|((resolve_aabb_overlap ⟨0, 0, 50, 50⟩ ⟨30, 10, 50, 50⟩ 1 0).1).x - 0| +
          |((resolve_aabb_overlap ⟨0, 0, 50, 50⟩ ⟨30, 10, 50, 50⟩ 1 0).1).y - 0|) +
        (|((resolve_aabb_overlap ⟨30, 10, 50, 50⟩ ⟨0, 0, 50, 50⟩ 0 0).1).x - 30| +
          |((resolve_aabb_overlap ⟨30, 10, 50, 50⟩ ⟨0, 0, 50, 50⟩ 0 0).1).y - 10|) ∧
      step2 ⟨0, 0, 50, 50⟩ ⟨30, 10, 50, 50⟩ 1 0 0 0 =
        ((resolve_aabb_overlap ⟨0, 0, 50, 50⟩ ⟨30, 10, 50, 50⟩ 1 0).1,
         (resolve_aabb_overlap ⟨30, 10, 50, 50⟩ ⟨0, 0, 50, 50⟩ 0 0).1)) :=
  ⟨by decide, C9_fallback_unreachable ⟨0, 0, 50, 50⟩ ⟨30, 10, 50, 50⟩ 1 0 0 0 (by decide)⟩

/-- Claim C8: on a non-overlapping pair (edge-touching included, since
edge-touching rectangles do not satisfy `colliderect`) the resolver returns
`(0, 0)` and does not move the mover, and hence a second call in succession
behaves identically. -/
theorem C8_no_overlap_noop (m s : Rect) (vx vy : ℚ) :
    (colliderect m s = false →
      resolve_aabb_overlap m s vx vy = (m, 0, 0) ∧
      resolve_aabb_overlap (resolve_aabb_overlap m s vx vy).1 s vx vy = (m, 0, 0)) ∧
    (m.right = s.left → colliderect m s = false) := by
  constructor
  · intro h
    have h1 : resolve_aabb_overlap m s vx vy = (m, 0, 0) := by
      simp [resolve_aabb_overlap, h]
    exact ⟨h1, by rw [h1]; simp [resolve_aabb_overlap, h]⟩
  · intro h
    simp only [colliderect, Bool.and_eq_false_iff]
    left; left; right
    simp [decide_eq_false_iff_not, h]

theorem C8_no_overlap_noop_witness :
    colliderect ⟨0, 0, 10, 10⟩ ⟨10, 0, 10, 10⟩ = false ∧
    (resolve_aabb_overlap ⟨0, 0, 10, 10⟩ ⟨10, 0, 10, 10⟩ 2 3 = (⟨0, 0, 10, 10⟩, 0, 0) ∧
     resolve_aabb_overlap (resolve_aabb_overlap ⟨0, 0, 10, 10⟩ ⟨10, 0, 10, 10⟩ 2 3).1
        ⟨10, 0, 10, 10⟩ 2 3 = (⟨0, 0, 10, 10⟩, 0, 0)) :=
  ⟨by decide, (C8_no_overlap_noop ⟨0, 0, 10, 10⟩ ⟨10, 0, 10, 10⟩ 2 3).1 (by decide)⟩

/-- Claim C7: when the two axis overlap depths are exactly equal in
magnitude, `resolve_aabb_overlap` resolves along the axis whose intended
speed is larger in magnitude, and resolves horizontally when the two
intended speeds are also equal (the source condition is `abs(vx) >= abs(vy)`). -/
theorem C7_tie_resolution (m s : Rect) (vx vy : ℚ)
    (hc : colliderect m s = true)
    (htie : |min_x_overlap m s| = |min_y_overlap m s|) :
    (|vy| ≤ |vx| →
      resolve_aabb_overlap m s vx vy =
        ({ m with x := m.x - min_x_overlap m s }, -min_x_overlap m s, 0)) ∧
    (|vx| < |vy| →
      resolve_aabb_overlap m s vx vy =
        ({ m with y := m.y - min_y_overlap m s }, 0, -min_y_overlap m s)) := by
  have h1 : ¬(|min_x_overlap m s| < |min_y_overlap m s|) := by rw [htie]; exact lt_irrefl _
  have h2 : ¬(|min_y_overlap m s| < |min_x_overlap m s|) := by rw [htie]; exact lt_irrefl _
  constructor
  · intro hv
    simp only [resolve_aabb_overlap, hc]
    norm_num
    rw [if_neg h1, if_neg h2, if_pos (by exact hv)]
    exact ⟨⟨by simp [sub_eq_add_neg], rfl⟩, fun _ => rfl⟩
  · intro hv
    simp only [resolve_aabb_overlap, hc]
    norm_num
    rw [if_neg h1, if_neg h2, if_neg (by exact not_le.mpr hv)]
    exact ⟨⟨rfl, by simp [sub_eq_add_neg]⟩, rfl⟩

theorem C7_tie_resolution_witness :
    colliderect ⟨0, 0, 10, 10⟩ ⟨5, 5, 10, 10⟩ = true ∧
    |min_x_overlap ⟨0, 0, 10, 10⟩ ⟨5, 5, 10, 10⟩| =
      |min_y_overlap ⟨0, 0, 10, 10⟩ ⟨5, 5, 10, 10⟩| ∧
    resolve_aabb_overlap ⟨0, 0, 10, 10⟩ ⟨5, 5, 10, 10⟩ 1 0 = (⟨-5, 0, 10, 10⟩, -5, 0) := by
  refine ⟨by decide, by decide, ?_⟩
  have h := (C7_tie_resolution ⟨0, 0, 10, 10⟩ ⟨5, 5, 10, 10⟩ 1 0 (by decide) (by decide)).1
    (by norm_num)
  rw [h]; decide

/-! ## Helper lemmas for the ball layer -/

lemma real_sqrt_val {a b : ℝ} (hb : 0 ≤ b) (h : b * b = a) : Real.sqrt a = b := by
  rw [← h]; exact Real.sqrt_mul_self hb

/-- Evaluation of `circle_rect_overlap` through its non-degenerate branch. -/
lemma circle_rect_overlap_eval (cx cy r : ℝ) (rect : Rect) (qx qy dsq dist : ℝ)
    (hqx : closest_x cx rect = qx) (hqy : closest_y cy rect = qy)
    (hdsq : (cx - qx) * (cx - qx) + (cy - qy) * (cy - qy) = dsq)
    (hle : ¬ dsq > r * r) (hne : dsq ≠ 0)
    (hdist : Real.sqrt dsq = dist) (hdne : dist ≠ 0) :
    circle_rect_overlap cx cy r rect =
      ((cx - qx) / dist * (r - dist), (cy - qy) / dist * (r - dist)) := by
  simp only [circle_rect_overlap, hqx, hqy, hdsq]
  rw [if_neg hle, if_pos hne, hdist, if_neg hdne]

/-- Evaluation of `circle_rect_overlap` through its no-overlap branch. -/
lemma circle_rect_overlap_none (cx cy r : ℝ) (rect : Rect) (qx qy : ℝ)
    (hqx : closest_x cx rect = qx) (hqy : closest_y cy rect = qy)
    (hgt : (cx - qx) * (cx - qx) + (cy - qy) * (cy - qy) > r * r) :
    circle_rect_overlap cx cy r rect = (0, 0) := by
  simp only [circle_rect_overlap, hqx, hqy]
  rw [if_pos hgt]

/-- A circle whose centre sits at distance exactly `r` from the closest
rectangle point gets a zero push-out. -/
lemma circle_rect_overlap_boundary (cx cy r : ℝ) (rect : Rect) (qx qy : ℝ)
    (hqx : closest_x cx rect = qx) (hqy : closest_y cy rect = qy)
    (hdsq : (cx - qx) * (cx - qx) + (cy - qy) * (cy - qy) = r * r) (hr : 0 < r) :
    circle_rect_overlap cx cy r rect = (0, 0) := by
  simp only [circle_rect_overlap, hqx, hqy, hdsq]
  rw [if_neg (lt_irrefl (r * r)), if_pos (ne_of_gt (mul_pos hr hr)),
    Real.sqrt_mul_self hr.le, if_neg (ne_of_gt hr)]
  norm_num

/-- Moving a point away from its clamped projection (by a positive scale of
the offset) does not change the projection. -/
lemma clamp_of_shift (lo hi c t : ℝ) (hlohi : lo ≤ hi) (ht : 0 < t) :
    max lo (min (max lo (min c hi) + (c - max lo (min c hi)) * t) hi) = max lo (min c hi) := by
  rcases lt_or_le c lo with h1 | h1
  · have hq : max lo (min c hi) = lo := by
      rw [min_eq_left (le_trans h1.le hlohi), max_eq_left h1.le]
    rw [hq]
    have hc' : lo + (c - lo) * t ≤ lo := by nlinarith
    rw [min_eq_left (le_trans hc' hlohi), max_eq_left hc']
  · rcases le_or_lt c hi with h2 | h2
    · have hq : max lo (min c hi) = c := by rw [min_eq_left h2, max_eq_right h1]
      rw [hq, sub_self, zero_mul, add_zero, min_eq_left h2, max_eq_right h1]
    · have hq : max lo (min c hi) = hi := by rw [min_eq_right h2.le, max_eq_right hlohi]
      rw [hq]
      have hc' : hi ≤ hi + (c - hi) * t := by nlinarith
      rw [min_eq_right hc', max_eq_right hlohi]

/-- After the push-out computed by the non-degenerate branch of
`circle_rect_overlap` is applied, the recomputed push-out is exactly zero. -/
lemma push_out_separates (cx cy r : ℝ) (rect : Rect)
    (hw : 0 ≤ rect.w) (hh : 0 ≤ rect.h) (hr : 0 < r)
    (hnd : (cx - closest_x cx rect) * (cx - closest_x cx rect) +
           (cy - closest_y cy rect) * (cy - closest_y cy rect) ≠ 0) :
    circle_rect_overlap (cx + (circle_rect_overlap cx cy r rect).1)
      (cy + (circle_rect_overlap cx cy r rect).2) r rect = (0, 0) := by
  have hlr : (rect.left : ℝ) ≤ (rect.right : ℝ) := by
    unfold Rect.left Rect.right
    have : (0:ℝ) ≤ (rect.w : ℝ) := by exact_mod_cast hw
    push_cast
    linarith
  have htb : (rect.top : ℝ) ≤ (rect.bottom : ℝ) := by
    unfold Rect.top Rect.bottom
    have : (0:ℝ) ≤ (rect.h : ℝ) := by exact_mod_cast hh
    push_cast
    linarith
  by_cases hgt : (cx - closest_x cx rect) * (cx - closest_x cx rect) +
      (cy - closest_y cy rect) * (cy - closest_y cy rect) > r * r
  · have hp : circle_rect_overlap cx cy r rect = (0, 0) :=
      circle_rect_overlap_none cx cy r rect _ _ rfl rfl hgt
    rw [hp]
    simpa using circle_rect_overlap_none cx cy r rect _ _ rfl rfl hgt
  · have hpos : 0 < (cx - closest_x cx rect) * (cx - closest_x cx rect) +
        (cy - closest_y cy rect) * (cy - closest_y cy rect) :=
      lt_of_le_of_ne (add_nonneg (mul_self_nonneg _) (mul_self_nonneg _)) (Ne.symm hnd)
    have hdpos : 0 < Real.sqrt ((cx - closest_x cx rect) * (cx - closest_x cx rect) +
        (cy - closest_y cy rect) * (cy - closest_y cy rect)) := Real.sqrt_pos.mpr hpos
    have hdne := ne_of_gt hdpos
    have hdsq : Real.sqrt ((cx - closest_x cx rect) * (cx - closest_x cx rect) +
          (cy - closest_y cy rect) * (cy - closest_y cy rect)) *
        Real.sqrt ((cx - closest_x cx rect) * (cx - closest_x cx rect) +
          (cy - closest_y cy rect) * (cy - closest_y cy rect)) =
        (cx - closest_x cx rect) * (cx - closest_x cx rect) +
          (cy - closest_y cy rect) * (cy - closest_y cy rect) :=
      Real.mul_self_sqrt (add_nonneg (mul_self_nonneg _) (mul_self_nonneg _))
    set dist := Real.sqrt ((cx - closest_x cx rect) * (cx - closest_x cx rect) +
      (cy - closest_y cy rect) * (cy - closest_y cy rect)) with hdist_def
    have hp : circle_rect_overlap cx cy r rect =
        ((cx - closest_x cx rect) / dist * (r - dist),
         (cy - closest_y cy rect) / dist * (r - dist)) :=
      circle_rect_overlap_eval cx cy r rect _ _ _ dist rfl rfl rfl hgt hnd rfl hdne
    rw [hp]
    have hargx : cx + (cx - closest_x cx rect) / dist * (r - dist) =
        closest_x cx rect + (cx - closest_x cx rect) * (r / dist) := by
      field_simp
      ring
    have hargy : cy + (cy - closest_y cy rect) / dist * (r - dist) =
        closest_y cy rect + (cy - closest_y cy rect) * (r / dist) := by
      field_simp
      ring
    rw [hargx, hargy]
    have ht : 0 < r / dist := div_pos hr hdpos
    have hclx : closest_x (closest_x cx rect + (cx - closest_x cx rect) * (r / dist)) rect =
        closest_x cx rect := by
      unfold closest_x
      exact clamp_of_shift _ _ cx (r / dist) hlr ht
    have hcly : closest_y (closest_y cy rect + (cy - closest_y cy rect) * (r / dist)) rect =
        closest_y cy rect := by
      unfold closest_y
      exact clamp_of_shift _ _ cy (r / dist) htb ht
    refine circle_rect_overlap_boundary _ _ r rect (closest_x cx rect) (closest_y cy rect)
      hclx hcly ?_ hr
    have h1 : closest_x cx rect + (cx - closest_x cx rect) * (r / dist) - closest_x cx rect =
        (cx - closest_x cx rect) * (r / dist) := by ring
    have h2 : closest_y cy rect + (cy - closest_y cy rect) * (r / dist) - closest_y cy rect =
        (cy - closest_y cy rect) * (r / dist) := by ring
    rw [h1, h2]
    field_simp
    nlinarith [hdsq]

lemma min_by_mag_mem (l : List (ℝ × ℝ)) (b : ℝ × ℝ) : min_by_mag l b ∈ b :: l := by
  induction l generalizing b with
  | nil => simp [min_by_mag]
  | cons o rest ih =>
    simp only [min_by_mag]
    by_cases hc : push_mag o < push_mag b
    · rw [if_pos hc]
      rcases List.mem_cons.mp (ih o) with h | h <;> simp [h]
    · rw [if_neg hc]
      rcases List.mem_cons.mp (ih b) with h | h <;> simp [h]

lemma min_by_mag_le (l : List (ℝ × ℝ)) (b : ℝ × ℝ) :
    push_mag (min_by_mag l b) ≤ push_mag b ∧
    ∀ o ∈ l, push_mag (min_by_mag l b) ≤ push_mag o := by
  induction l generalizing b with
  | nil => simp [min_by_mag]
  | cons o rest ih =>
    simp only [min_by_mag]
    obtain ⟨ih1, ih2⟩ := ih (if push_mag o < push_mag b then o else b)
    have hb : push_mag (min_by_mag rest (if push_mag o < push_mag b then o else b)) ≤
        push_mag b := by
      refine le_trans ih1 ?_
      split_ifs with h
      · exact le_of_lt h
      · exact le_refl _
    have ho : push_mag (min_by_mag rest (if push_mag o < push_mag b then o else b)) ≤
        push_mag o := by
      refine le_trans ih1 ?_
      split_ifs with h
      · exact le_refl _
      · exact not_lt.mp h
    exact ⟨hb, fun o' ho' => by
      rcases List.mem_cons.mp ho' with h | h
      · exact h ▸ ho
      · exact ih2 o' h⟩

/-- `circle_rect_overlap` for a centre on or inside the rectangle reduces to
the Python `min` over the four candidate pushes. -/
lemma circle_rect_overlap_inside (cx cy r : ℝ) (rect : Rect)
    (h1 : (rect.left : ℝ) ≤ cx) (h2 : cx ≤ (rect.right : ℝ))
    (h3 : (rect.top : ℝ) ≤ cy) (h4 : cy ≤ (rect.bottom : ℝ)) :
    circle_rect_overlap cx cy r rect =
      min_by_mag [((r - |(rect.right : ℝ) - cx|), 0), (0, -(r - |cy - (rect.top : ℝ)|)),
        (0, (r - |(rect.bottom : ℝ) - cy|))] (-(r - |cx - (rect.left : ℝ)|), 0) := by
  have hqx : closest_x cx rect = cx := by
    unfold closest_x; rw [min_eq_left h2, max_eq_right h1]
  have hqy : closest_y cy rect = cy := by
    unfold closest_y; rw [min_eq_left h4, max_eq_right h3]
  simp only [circle_rect_overlap, hqx, hqy, degenerate_options, sub_self, mul_zero, add_zero]
  rw [if_neg (by simp [mul_self_nonneg r])]
  norm_num

/-- Only one velocity-damping step of `wall_bounce`: a conditional sign flip
scaled by `d ≤ 1` cannot increase the squared component. -/
lemma flip_sq_le (u d : ℝ) (h0 : 0 ≤ d) (h1 : d ≤ 1) (c : Prop) [Decidable c] :
    (if c then -u * d else u) * (if c then -u * d else u) ≤ u * u := by
  split_ifs with h
  · nlinarith [mul_nonneg (mul_self_nonneg u) (show (0:ℝ) ≤ 1 - d * d by nlinarith)]
  · exact le_refl _

/-! ## Claims about the ball layer -/

/-- Claim C6: `reflect_velocity_over_normal` computes the spec formula
`v' = (v - 2(v·n)n) * damping` for every velocity, normal and damping, and
reflecting `(5, 0)` about `(1, 0)` with damping `1` gives exactly `(-5, 0)`. -/
theorem C6_reflect_refines_formula (vx vy nx ny damp : ℝ) :
    reflect_velocity_over_normal vx vy nx ny damp =
      reflect_formula (vx, vy) (nx, ny) damp ∧
    reflect_velocity_over_normal 5 0 1 0 1 = (-5, 0) := by
  constructor
  · simp only [reflect_velocity_over_normal, reflect_formula, Prod.smul_def, Prod.mk_sub_mk,
      smul_eq_mul, Prod.mk.injEq]
    constructor <;> ring
  · simp only [reflect_velocity_over_normal]
    norm_num

/-- Claim C10: the ball-box response body runs only when the push-out vector
is nonzero, and for a nonzero push-out `math.hypot` is nonzero, so
`contact_normal` never substitutes the default normal `(0, -1)`. -/
theorem C10_default_normal_unreachable (px py : ℝ) (h : px ≠ 0 ∨ py ≠ 0) :
    Real.sqrt (px * px + py * py) ≠ 0 ∧
    contact_normal px py =
      (px / Real.sqrt (px * px + py * py), py / Real.sqrt (px * px + py * py)) := by
  have hpos : 0 < px * px + py * py := by
    rcases h with h | h
    · nlinarith [mul_self_pos.mpr h, mul_self_nonneg py]
    · nlinarith [mul_self_pos.mpr h, mul_self_nonneg px]
  have hs : Real.sqrt (px * px + py * py) ≠ 0 := ne_of_gt (Real.sqrt_pos.mpr hpos)
  exact ⟨hs, by simp only [contact_normal]; rw [if_neg hs]⟩

theorem C10_default_normal_unreachable_witness :
    ((3:ℝ) ≠ 0 ∨ (4:ℝ) ≠ 0) ∧
    (Real.sqrt (3 * 3 + 4 * 4) ≠ 0 ∧
     contact_normal 3 4 = (3 / Real.sqrt (3 * 3 + 4 * 4), 4 / Real.sqrt (3 * 3 + 4 * 4))) :=
  ⟨Or.inl (by norm_num), C10_default_normal_unreachable 3 4 (Or.inl (by norm_num))⟩

/-- Claim C5: when the circle centre lies on or inside the rectangle (the
nearest boundary point is at distance zero), `circle_rect_overlap` returns
one of the four axis-aligned candidate pushes, and its `|px| + |py|`
magnitude is minimal among the four; the corner case is the witness. -/
theorem C5_degenerate_minimal_push (cx cy r : ℝ) (rect : Rect)
    (h1 : (rect.left : ℝ) ≤ cx) (h2 : cx ≤ (rect.right : ℝ))
    (h3 : (rect.top : ℝ) ≤ cy) (h4 : cy ≤ (rect.bottom : ℝ)) :
    circle_rect_overlap cx cy r rect ∈ degenerate_options cx cy r rect ∧
    ∀ o ∈ degenerate_options cx cy r rect,
      push_mag (circle_rect_overlap cx cy r rect) ≤ push_mag o := by
  rw [circle_rect_overlap_inside cx cy r rect h1 h2 h3 h4]
  have hmem := min_by_mag_mem
    [((r - |(rect.right : ℝ) - cx|), 0), (0, -(r - |cy - (rect.top : ℝ)|)),
     (0, (r - |(rect.bottom : ℝ) - cy|))] (-(r - |cx - (rect.left : ℝ)|), 0)
  have hle := min_by_mag_le
    [((r - |(rect.right : ℝ) - cx|), 0), (0, -(r - |cy - (rect.top : ℝ)|)),
     (0, (r - |(rect.bottom : ℝ) - cy|))] (-(r - |cx - (rect.left : ℝ)|), 0)
  constructor
  · simpa [degenerate_options] using hmem
  · intro o ho
    simp only [degenerate_options, List.mem_cons, List.not_mem_nil, or_false] at ho
    rcases ho with h | h | h | h
    · exact h ▸ hle.1
    · exact h ▸ hle.2 _ (List.mem_cons_self _ _)
    · exact h ▸ hle.2 _ (List.mem_cons_of_mem _ (List.mem_cons_self _ _))
    · exact h ▸ hle.2 _
        (List.mem_cons_of_mem _ (List.mem_cons_of_mem _ (List.mem_cons_self _ _)))

theorem C5_degenerate_minimal_push_witness :
    (((⟨0, 0, 50, 50⟩ : Rect).left : ℝ) ≤ 0 ∧ (0:ℝ) ≤ ((⟨0, 0, 50, 50⟩ : Rect).right : ℝ) ∧
     ((⟨0, 0, 50, 50⟩ : Rect).top : ℝ) ≤ 0 ∧ (0:ℝ) ≤ ((⟨0, 0, 50, 50⟩ : Rect).bottom : ℝ)) ∧
    (circle_rect_overlap 0 0 5 ⟨0, 0, 50, 50⟩ ∈ degenerate_options 0 0 5 ⟨0, 0, 50, 50⟩ ∧
     ∀ o ∈ degenerate_options 0 0 5 ⟨0, 0, 50, 50⟩,
       push_mag (circle_rect_overlap 0 0 5 ⟨0, 0, 50, 50⟩) ≤ push_mag o) :=
  ⟨by norm_num [Rect.left, Rect.right, Rect.top, Rect.bottom],
   C5_degenerate_minimal_push 0 0 5 ⟨0, 0, 50, 50⟩
     (by norm_num [Rect.left]) (by norm_num [Rect.right])
     (by norm_num [Rect.top]) (by norm_num [Rect.bottom])⟩

/-- Claim C4 as stated is false: starting the tick at centre `(5, 300)` with
velocity `(-100, 0)` and `dt = 1/60`, the ball ends at `x = 22` as expected,
but its x-velocity is `94.525 = 100 * BALL_FRICTION * BALL_BOUNCE_DAMP`, not
`100 * BALL_BOUNCE_DAMP = 95`, because friction is applied during
integration before the wall bounce. -/
theorem C4_friction_applied_before_bounce :
    ball_wall_tick (5, 300) (-100, 0) (1 / 60) = ((22, 300), (94.525, 0)) ∧
    (ball_wall_tick (5, 300) (-100, 0) (1 / 60)).2.1 ≠ 100 * BALL_BOUNCE_DAMP := by
  have h : ball_wall_tick (5, 300) (-100, 0) (1 / 60) = ((22, 300), (94.525, 0)) := by
    simp only [ball_wall_tick, ball_integrate, wall_bounce,
      WIDTH, HEIGHT, BALL_RADIUS, BALL_BOUNCE_DAMP, BALL_FRICTION]
    norm_num
  refine ⟨h, ?_⟩
  rw [h]
  simp only [BALL_BOUNCE_DAMP]
  norm_num

/-- Claim C4 amended: for every `dt ≥ 0`, the tick from centre `(5, 300)`
with velocity `(-100, 0)` crosses the left wall, ends with `center.x = 22`,
and its x-velocity equals `100 * BALL_FRICTION * BALL_BOUNCE_DAMP`
(`= 94.525`): the sign is flipped and both the per-tick friction factor and
the bounce damping are applied. -/
theorem C4_amended_left_wall (dt : ℝ) (hdt : 0 ≤ dt) :
    (ball_wall_tick (5, 300) (-100, 0) dt).1.1 = 22 ∧
    (ball_wall_tick (5, 300) (-100, 0) dt).2.1 = 100 * BALL_FRICTION * BALL_BOUNCE_DAMP := by
  simp only [ball_wall_tick, ball_integrate, wall_bounce,
    WIDTH, HEIGHT, BALL_RADIUS, BALL_BOUNCE_DAMP, BALL_FRICTION]
  have hc1 : (5:ℝ) + -100 * dt - 22 < 0 := by nlinarith
  simp only [hc1, if_true]
  norm_num

theorem C4_amended_left_wall_witness :
    (0:ℝ) ≤ 1 / 60 ∧
    ((ball_wall_tick (5, 300) (-100, 0) (1 / 60)).1.1 = 22 ∧
     (ball_wall_tick (5, 300) (-100, 0) (1 / 60)).2.1 =
       100 * BALL_FRICTION * BALL_BOUNCE_DAMP) :=
  ⟨by norm_num, C4_amended_left_wall (1 / 60) (by norm_num)⟩

/-- Claim C3 as stated is false for a moving box: a resting ball overlapping
a box that moves toward it at speed 500 leaves the bounce with speed 975,
a strict increase, although the damping 0.95 lies in `[0, 1)`. -/
theorem C3_moving_box_bounce_speeds_up :
    ball_box_response (60, 25) (0, 0) 22 ⟨0, 0, 50, 50⟩ 500 0 0.95 = ((72, 25), (975, 0)) ∧
    (0:ℝ) ≤ 0.95 ∧ (0.95:ℝ) < 1 ∧
    speed_sq (0, 0) <
      speed_sq ((ball_box_response (60, 25) (0, 0) 22 ⟨0, 0, 50, 50⟩ 500 0 0.95).2) := by
  have hp : circle_rect_overlap 60 25 22 ⟨0, 0, 50, 50⟩ = (12, 0) := by
    rw [circle_rect_overlap_eval 60 25 22 ⟨0, 0, 50, 50⟩ 50 25 100 10
      (by norm_num [closest_x, Rect.left, Rect.right])
      (by norm_num [closest_y, Rect.top, Rect.bottom])
      (by norm_num) (by norm_num) (by norm_num)
      (real_sqrt_val (by norm_num) (by norm_num)) (by norm_num)]
    norm_num
  have hn : contact_normal 12 0 = (1, 0) := by
    simp only [contact_normal]
    rw [show Real.sqrt (12 * 12 + 0 * 0) = 12 from real_sqrt_val (by norm_num) (by norm_num)]
    rw [if_neg (by norm_num)]
    norm_num
  have hb : ball_box_response (60, 25) (0, 0) 22 ⟨0, 0, 50, 50⟩ 500 0 0.95 =
      ((72, 25), (975, 0)) := by
    simp only [ball_box_response, hp]
    rw [if_pos (Or.inl (by norm_num))]
    simp only [hn, reflect_velocity_over_normal]
    norm_num
  exact ⟨hb, by norm_num, by norm_num, by rw [hb]; simp only [speed_sq]; norm_num⟩

/-- One axis of `wall_bounce`: the two sequential optional flips (each one
negating and damping the component, the second one reading the result of
the first) cannot increase the squared component when `d ≤ 1`. -/
lemma axis_sq_le (u d : ℝ) (h0 : 0 ≤ d) (h1 : d ≤ 1) (ca cb : Prop)
    [Decidable ca] [Decidable cb] :
    (if cb then -(if ca then -u * d else u) * d else (if ca then -u * d else u)) *
      (if cb then -(if ca then -u * d else u) * d else (if ca then -u * d else u)) ≤
    u * u :=
  le_trans (flip_sq_le (if ca then -u * d else u) d h0 h1 cb) (flip_sq_le u d h0 h1 ca)

/-- One axis of `wall_bounce`: if either of the two wall checks fires while
the component it negates is nonzero at that moment, the squared component
strictly decreases for `d < 1`. -/
lemma axis_sq_lt (u d : ℝ) (h0 : 0 ≤ d) (h1 : d < 1) (ca cb : Prop)
    [Decidable ca] [Decidable cb]
    (h : (ca ∧ u ≠ 0) ∨ (cb ∧ (if ca then -u * d else u) ≠ 0)) :
    (if cb then -(if ca then -u * d else u) * d else (if ca then -u * d else u)) *
      (if cb then -(if ca then -u * d else u) * d else (if ca then -u * d else u)) <
    u * u := by
  rcases h with ⟨hca, hu⟩ | ⟨hcb, hu1⟩
  · refine lt_of_le_of_lt (flip_sq_le (if ca then -u * d else u) d h0 h1.le cb) ?_
    rw [if_pos hca]
    nlinarith [mul_pos (show (0:ℝ) < 1 - d * d by nlinarith) (mul_self_pos.mpr hu)]
  · rw [if_pos hcb]
    refine lt_of_lt_of_le ?_ (flip_sq_le u d h0 h1.le ca)
    nlinarith [mul_pos (show (0:ℝ) < 1 - d * d by nlinarith)
      (mul_self_pos.mpr hu1)]

/-- Claim C3 amended: with damping `d ∈ [0, 1)`, a wall bounce whose crossed
component of velocity is nonzero strictly decreases the ball's speed — for
any of the four walls (the hypothesis is the disjunction of the four wall
triggers of the source, each paired with the component it negates, read at
the moment the check runs, being nonzero) — and a ball-box bounce scales
the ball's speed relative to the box by exactly `d` (a strict decrease when
the relative velocity is nonzero); the world speed can increase when the
box moves, as the counterexample shows.  Speeds are compared through their
squares. -/
theorem C3_amended_energy (pos vel : ℝ × ℝ) (width height damp r rvx rvy nx ny : ℝ)
    (hd0 : 0 ≤ damp) (hd1 : damp < 1)
    (hwall :
      ((pos.1 - r < 0 ∧ vel.1 ≠ 0) ∨
       ((if pos.1 - r < 0 then r else pos.1) + r > width ∧
        (if pos.1 - r < 0 then -vel.1 * damp else vel.1) ≠ 0)) ∨
      ((pos.2 - r < 0 ∧ vel.2 ≠ 0) ∨
       ((if pos.2 - r < 0 then r else pos.2) + r > height ∧
        (if pos.2 - r < 0 then -vel.2 * damp else vel.2) ≠ 0)))
    (hn : nx * nx + ny * ny = 1) (hrel : ¬(rvx = 0 ∧ rvy = 0)) :
    speed_sq (wall_bounce pos vel r width height damp).2 < speed_sq vel ∧
    speed_sq (reflect_velocity_over_normal rvx rvy nx ny damp) =
      (damp * damp) * speed_sq (rvx, rvy) ∧
    speed_sq (reflect_velocity_over_normal rvx rvy nx ny damp) < speed_sq (rvx, rvy) := by
  have hd2 : damp * damp < 1 := by nlinarith
  have heq : speed_sq (reflect_velocity_over_normal rvx rvy nx ny damp) =
      (damp * damp) * speed_sq (rvx, rvy) := by
    simp only [reflect_velocity_over_normal, speed_sq]
    linear_combination (4 * (rvx * nx + rvy * ny) ^ 2 * damp ^ 2) * hn
  have hs : 0 < speed_sq (rvx, rvy) := by
    simp only [speed_sq]
    rcases not_and_or.mp hrel with h | h
    · nlinarith [mul_self_pos.mpr h, mul_self_nonneg rvy]
    · nlinarith [mul_self_pos.mpr h, mul_self_nonneg rvx]
  refine ⟨?_, heq, ?_⟩
  · simp only [wall_bounce, speed_sq]
    rcases hwall with hx | hy
    · exact add_lt_add_of_lt_of_le
        (axis_sq_lt vel.1 damp hd0 hd1 (pos.1 - r < 0)
          ((if pos.1 - r < 0 then r else pos.1) + r > width) hx)
        (axis_sq_le vel.2 damp hd0 hd1.le (pos.2 - r < 0)
          ((if pos.2 - r < 0 then r else pos.2) + r > height))
    · exact add_lt_add_of_le_of_lt
        (axis_sq_le vel.1 damp hd0 hd1.le (pos.1 - r < 0)
          ((if pos.1 - r < 0 then r else pos.1) + r > width))
        (axis_sq_lt vel.2 damp hd0 hd1 (pos.2 - r < 0)
          ((if pos.2 - r < 0 then r else pos.2) + r > height) hy)
  · rw [heq]
    nlinarith [mul_pos (show (0:ℝ) < 1 - damp * damp by nlinarith) hs]

theorem C3_amended_energy_witness :
    ((0:ℝ) ≤ 0.5 ∧ (0.5:ℝ) < 1 ∧
     ((((100:ℝ) - 22 < 0 ∧ (0:ℝ) ≠ 0) ∨
       ((if (100:ℝ) - 22 < 0 then (22:ℝ) else 100) + 22 > 960 ∧
        (if (100:ℝ) - 22 < 0 then -(0:ℝ) * 0.5 else 0) ≠ 0)) ∨
      (((710:ℝ) - 22 < 0 ∧ (5:ℝ) ≠ 0) ∨
       ((if (710:ℝ) - 22 < 0 then (22:ℝ) else 710) + 22 > 720 ∧
        (if (710:ℝ) - 22 < 0 then -(5:ℝ) * 0.5 else 5) ≠ 0))) ∧
     (0.6:ℝ) * 0.6 + 0.8 * 0.8 = 1 ∧ ¬((1:ℝ) = 0 ∧ (2:ℝ) = 0)) ∧
    (speed_sq (wall_bounce (100, 710) (0, 5) 22 960 720 0.5).2 < speed_sq (0, 5) ∧
     speed_sq (reflect_velocity_over_normal 1 2 0.6 0.8 0.5) =
       (0.5 * 0.5) * speed_sq (1, 2) ∧
     speed_sq (reflect_velocity_over_normal 1 2 0.6 0.8 0.5) < speed_sq (1, 2)) :=
  ⟨⟨by norm_num, by norm_num,
    Or.inr (Or.inr ⟨by norm_num, by norm_num⟩), by norm_num, by norm_num⟩,
   C3_amended_energy (100, 710) (0, 5) 960 720 0.5 22 1 2 0.6 0.8
     (by norm_num) (by norm_num)
     (Or.inr (Or.inr ⟨by norm_num, by norm_num⟩)) (by norm_num) (by norm_num)⟩

/-- Claim C2 as stated is false: with box 1 at (0,0) and box 2 at (76,0)
(both 50×50) and the ball of radius 22 at (55,25), step 5 first pushes the
ball out of box 1 to (72,25), then box 2 pushes it back left to (54,25),
which overlaps box 1 again: the recomputed push-out against box 1 at the
end of the tick is (18,0), of nonzero magnitude. -/
theorem C2_ball_reenters_first_box :
    (step5 (55, 25) (0, 0) 22 ⟨0, 0, 50, 50⟩ ⟨76, 0, 50, 50⟩ 0 0 0 0 0.95).1 = (54, 25) ∧
    circle_rect_overlap 54 25 22 ⟨0, 0, 50, 50⟩ = (18, 0) ∧
    push_mag (circle_rect_overlap 54 25 22 ⟨0, 0, 50, 50⟩) ≠ 0 := by
  have hz : ∀ (n d : ℝ), reflect_velocity_over_normal 0 0 n 0 d = 0 := by
    intro n d
    simp [reflect_velocity_over_normal, Prod.ext_iff]
  have hp1 : circle_rect_overlap 55 25 22 ⟨0, 0, 50, 50⟩ = (17, 0) := by
    rw [circle_rect_overlap_eval 55 25 22 ⟨0, 0, 50, 50⟩ 50 25 25 5
      (by norm_num [closest_x, Rect.left, Rect.right])
      (by norm_num [closest_y, Rect.top, Rect.bottom])
      (by norm_num) (by norm_num) (by norm_num)
      (real_sqrt_val (by norm_num) (by norm_num)) (by norm_num)]
    norm_num
  have hn1 : contact_normal 17 0 = (1, 0) := by
    simp only [contact_normal]
    rw [show Real.sqrt (17 * 17 + 0 * 0) = 17 from real_sqrt_val (by norm_num) (by norm_num)]
    rw [if_neg (by norm_num)]
    norm_num
  have hr1 : ball_box_response (55, 25) (0, 0) 22 ⟨0, 0, 50, 50⟩ 0 0 0.95 =
      ((72, 25), (0, 0)) := by
    simp only [ball_box_response, hp1]
    rw [if_pos (Or.inl (by norm_num))]
    simp only [hn1]
    norm_num [hz]
  have hp2 : circle_rect_overlap 72 25 22 ⟨76, 0, 50, 50⟩ = (-18, 0) := by
    rw [circle_rect_overlap_eval 72 25 22 ⟨76, 0, 50, 50⟩ 76 25 16 4
      (by norm_num [closest_x, Rect.left, Rect.right])
      (by norm_num [closest_y, Rect.top, Rect.bottom])
      (by norm_num) (by norm_num) (by norm_num)
      (real_sqrt_val (by norm_num) (by norm_num)) (by norm_num)]
    norm_num
  have hn2 : contact_normal (-18) 0 = (-1, 0) := by
    simp only [contact_normal]
    rw [show Real.sqrt (-18 * -18 + 0 * 0) = 18 from real_sqrt_val (by norm_num) (by norm_num)]
    rw [if_neg (by norm_num)]
    norm_num
  have hr2 : ball_box_response (72, 25) (0, 0) 22 ⟨76, 0, 50, 50⟩ 0 0 0.95 =
      ((54, 25), (0, 0)) := by
    simp only [ball_box_response, hp2]
    rw [if_pos (Or.inl (by norm_num))]
    simp only [hn2]
    norm_num [hz]
  have hfin : circle_rect_overlap 54 25 22 ⟨0, 0, 50, 50⟩ = (18, 0) := by
    rw [circle_rect_overlap_eval 54 25 22 ⟨0, 0, 50, 50⟩ 50 25 16 4
      (by norm_num [closest_x, Rect.left, Rect.right])
      (by norm_num [closest_y, Rect.top, Rect.bottom])
      (by norm_num) (by norm_num) (by norm_num)
      (real_sqrt_val (by norm_num) (by norm_num)) (by norm_num)]
    norm_num
  refine ⟨?_, hfin, ?_⟩
  · simp only [step5, hr1, hr2]
  · rw [hfin]; simp only [push_mag]; norm_num

/-- Claim C2 amended: the ball never overlaps the box processed LAST: after
the response to a box whose push-out is computed by the non-degenerate
branch (ball centre strictly outside the box, positive radius,
non-degenerate rectangle), recomputing `circle_rect_overlap` against that
box at the ball's new position yields exactly `(0, 0)`.  The guarantee does
not extend to the box processed first, as the counterexample shows. -/
theorem C2_amended_last_box_separated (pos vel : ℝ × ℝ) (r : ℝ) (rect : Rect)
    (mvx mvy damp : ℝ)
    (hw : 0 ≤ rect.w) (hh : 0 ≤ rect.h) (hr : 0 < r)
    (hnd : (pos.1 - closest_x pos.1 rect) * (pos.1 - closest_x pos.1 rect) +
           (pos.2 - closest_y pos.2 rect) * (pos.2 - closest_y pos.2 rect) ≠ 0) :
    circle_rect_overlap ((ball_box_response pos vel r rect mvx mvy damp).1).1
      ((ball_box_response pos vel r rect mvx mvy damp).1).2 r rect = (0, 0) := by
  have key := push_out_separates pos.1 pos.2 r rect hw hh hr hnd
  simp only [ball_box_response]
  by_cases hq : (circle_rect_overlap pos.1 pos.2 r rect).1 ≠ 0 ∨
      (circle_rect_overlap pos.1 pos.2 r rect).2 ≠ 0
  · rw [if_pos hq]
    exact key
  · rw [if_neg hq]
    push_neg at hq
    exact Prod.ext hq.1 hq.2

theorem C2_amended_last_box_separated_witness :
    ((0:ℤ) ≤ (⟨0, 0, 50, 50⟩ : Rect).w ∧ (0:ℤ) ≤ (⟨0, 0, 50, 50⟩ : Rect).h ∧ (0:ℝ) < 22 ∧
     ((60:ℝ) - closest_x 60 ⟨0, 0, 50, 50⟩) * (60 - closest_x 60 ⟨0, 0, 50, 50⟩) +
       ((25:ℝ) - closest_y 25 ⟨0, 0, 50, 50⟩) * (25 - closest_y 25 ⟨0, 0, 50, 50⟩) ≠ 0) ∧
    circle_rect_overlap ((ball_box_response (60, 25) (7, 9) 22 ⟨0, 0, 50, 50⟩ 0 0 0.95).1).1
      ((ball_box_response (60, 25) (7, 9) 22 ⟨0, 0, 50, 50⟩ 0 0 0.95).1).2
      22 ⟨0, 0, 50, 50⟩ = (0, 0) :=
  ⟨⟨by norm_num, by norm_num, by norm_num,
    by norm_num [closest_x, closest_y, Rect.left, Rect.right, Rect.top, Rect.bottom]⟩,
   C2_amended_last_box_separated (60, 25) (7, 9) 22 ⟨0, 0, 50, 50⟩ 0 0 0.95
     (by norm_num) (by norm_num) (by norm_num)
     (by norm_num [closest_x, closest_y, Rect.left, Rect.right, Rect.top, Rect.bottom])⟩

end Autonomia
